import Mathlib

/-!
Shallow embedding of `redash/models/parameterized_query.py`: the
parameterized-query templating and validation engine.  Python dict values
become association lists, Python exceptions become an explicit error type,
and the two external collaborators (the query/result lookup used by
`_load_result` and the `dateutil`/float parsers) are supplied through an
explicit environment record.
-/

namespace PQuery

/-- A Python runtime value as it appears in parameter maps: `None`, a string,
a number (modelled as `Int`), a list, or a dict (association list in
insertion order). -/
inductive Val where
  | null
  | str (s : String)
  | num (n : Int)
  | list (xs : List Val)
  | obj (kvs : List (String × Val))
deriving Repr

/-- A single-quote character, used by the Python `repr` of strings. -/
def sq : String := String.singleton (Char.ofNat 39)

mutual

/-- Python `repr` of a value (what `str` falls back to for containers). -/
def pyRepr : Val → String
  | .null => "None"
  | .str s => sq ++ s ++ sq
  | .num n => toString n
  | .list xs => "[" ++ pyReprList xs ++ "]"
  | .obj kvs => "\x7b" ++ pyReprObj kvs ++ "\x7d"

def pyReprList : List Val → String
  | [] => ""
  | [x] => pyRepr x
  | x :: xs => pyRepr x ++ ", " ++ pyReprList xs

def pyReprObj : List (String × Val) → String
  | [] => ""
  | [(k, v)] => sq ++ k ++ sq ++ ": " ++ pyRepr v
  | (k, v) :: xs => sq ++ k ++ sq ++ ": " ++ pyRepr v ++ ", " ++ pyReprObj xs

end

/-- Python `str()` of a value: identity on strings, `repr`-like otherwise. -/
def pyStr : Val → String
  | .str s => s
  | v => pyRepr v

/-- Python truthiness of a value. -/
def pyTruthy : Val → Bool
  | .null => false
  | .str s => s ≠ ""
  | .num n => n ≠ 0
  | .list xs => !xs.isEmpty
  | .obj kvs => !kvs.isEmpty

/-- The Python `value is None` test. -/
def Val.isNull : Val → Bool
  | .null => true
  | _ => false

/-- First binding of key `k` in an association list, like a Python dict
lookup (dicts have unique keys, so first match is the binding). -/
def getKey (kvs : List (String × Val)) (k : String) : Option Val :=
  (kvs.find? (fun kv => kv.1 = k)).map (·.2)

/-- Dict membership test, `k in d`. -/
def hasKey (kvs : List (String × Val)) (k : String) : Bool :=
  kvs.any (fun kv => kv.1 = k)

/-- Modelled from the spec: the parsed template node structure exposed by the
templating dependency — literal text, a variable-interpolation node holding
its literal identifier, and a section/block node holding its identifier and a
recursively nested body. -/
inductive Node where
  | text (s : String)
  | interp (key : String)
  | sect (key : String) (body : List Node)
deriving Repr

mutual

/-- Modelled from the spec: the raw template source text a parsed node came
from (used only for the constructor's initial, unrendered `query` field). -/
def nodeSource : Node → String
  | .text s => s
  | .interp k => "\x7b\x7b" ++ k ++ "\x7d\x7d"
  | .sect k body =>
      "\x7b\x7b#" ++ k ++ "\x7d\x7d" ++ nodesSource body ++ "\x7b\x7b/" ++ k ++ "\x7d\x7d"

def nodesSource : List Node → String
  | [] => ""
  | n :: ns => nodeSource n ++ nodesSource ns

end

/-- Split a character list on a separator character, keeping empty
segments, as Python `str.split(sep)` does. -/
def splitCharList (sep : Char) : List Char → List (List Char)
  | [] => [[]]
  | c :: cs =>
      if c = sep then [] :: splitCharList sep cs
      else
        match splitCharList sep cs with
        | [] => [[c]]
        | g :: gs => (c :: g) :: gs

/-- Split a string on the dots, like `name.split(".")`. -/
def splitDots (s : String) : List String :=
  (splitCharList (Char.ofNat 46) s.data).map (fun cs => ⟨cs⟩)

/-- Python `str.lower()` (per-character lowercasing). -/
def lowerStr (s : String) : String :=
  ⟨s.data.map Char.toLower⟩

/-- Resolve the remaining dotted components of a name against a value:
each component is looked up as a dict key of the current value. -/
def resolveParts : Val → List String → Option Val
  | v, [] => some v
  | .obj kvs, p :: ps =>
      match getKey kvs p with
      | some v => resolveParts v ps
      | none => none
  | _, _ :: _ => none

/-- Modelled from the spec: render-time name resolution of the templating
capability — a dotted name is split on the dots, the first component is
looked up in the parameter map and the rest inside nested dict values. -/
def resolveName (params : List (String × Val)) (name : String) : Option Val :=
  match splitDots name with
  | [] => none
  | p :: ps =>
      match getKey params p with
      | some v => resolveParts v ps
      | none => none

/-- Context push when rendering a section body: a dict item's bindings
shadow the outer parameter map, anything else leaves it unchanged. -/
def pushCtx (item : Val) (params : List (String × Val)) : List (String × Val) :=
  match item with
  | .obj kvs => kvs ++ params
  | _ => params

mutual

/-- Modelled from the spec: `render(template, parameter_map)` — standard
variable interpolation and section/conditional substitution, no markup
escaping; an unresolved or null interpolation renders as the empty string,
a falsy section renders nothing, a list section renders its body once per
item, and any other truthy value renders the body once. -/
def renderNode (params : List (String × Val)) : Node → String
  | .text s => s
  | .interp k =>
      match resolveName params k with
      | none => ""
      | some .null => ""
      | some v => pyStr v
  | .sect k body =>
      match resolveName params k with
      | none => ""
      | some v =>
          if pyTruthy v then
            match v with
            | .list items => String.join (items.map (fun it => renderNodes (pushCtx it params) body))
            | .obj kvs => renderNodes (kvs ++ params) body
            | _ => renderNodes params body
          else ""

def renderNodes (params : List (String × Val)) : List Node → String
  | [] => ""
  | n :: ns => renderNode params n ++ renderNodes params ns

end

/-- Modelled from the spec: `mustache_render(template, context)`, the
renderer entry point. -/
def mustache_render (template : List Node) (params : List (String × Val)) : String :=
  renderNodes params template

/-- `funcy.distinct` with an explicit seen-accumulator: deduplicate,
keeping the first occurrence of each element. -/
def distinctAux (seen : List String) : List String → List String
  | [] => []
  | x :: xs => if x ∈ seen then distinctAux seen xs else x :: distinctAux (x :: seen) xs

/-- `funcy.distinct`: deduplicate a list, keeping first occurrences. -/
def distinct (l : List String) : List String :=
  distinctAux [] l

mutual

/-- The keys appended for one parse-tree node by `_collect_key_names`: an
interpolation node contributes its key; a section node contributes its key
followed by the (recursively deduplicated) keys of its body; literal text
contributes nothing. -/
def nodeKeys : Node → List String
  | .text _ => []
  | .interp k => [k]
  | .sect k body => k :: distinct (rawKeys body)

def rawKeys : List Node → List String
  | [] => []
  | n :: ns => nodeKeys n ++ rawKeys ns

end

/-- `_collect_key_names(nodes)`: walk the parse tree collecting keys, then
deduplicate keeping first occurrences. -/
def collect_key_names (nodes : List Node) : List String :=
  distinct (rawKeys nodes)

/-- `_collect_query_parameters(query)`: templates are embedded as their
parse trees, so this is `_collect_key_names` of the template. -/
def collect_query_parameters (template : List Node) : List String :=
  collect_key_names template

/-- The `multiValuesOptions` object of a schema entry; the `.get` defaults
of `_join_list_values` (separator `","`, empty wrap strings) are the field
defaults.  `pre`/`suf` are the wrap strings applied around each entry. -/
structure MultiValuesOptions where
  separator : String := ","
  pre : String := ""
  suf : String := ""
deriving Repr

/-- The `enumOptions` field of a schema entry: absent, a single
newline-separated string, or a literal list of strings. -/
inductive EnumOptions where
  | absent
  | asString (s : String)
  | asList (xs : List String)
deriving Repr, DecidableEq

/-- One schema entry (a parameter definition dict).  Truthiness of the
`optional`/`escape` flags is modelled as `Bool`; an absent
`multiValuesOptions` (or one that is not a dict) is `none`. -/
structure ParamDef where
  name : String
  type : String
  optional : Bool := false
  escape : Bool := false
  enumOptions : EnumOptions := .absent
  queryId : Nat := 0
  multiValuesOptions : Option MultiValuesOptions := none

/-- The query runner a data source exposes: escape support flag and the
escape transform (`supports_escape`, `escape_parameter`). -/
structure DataSource where
  supports_escape : Bool
  escape_parameter : String → String

/-- The stored result set behind a dropdown query:
`data["columns"]` (column names, in declaration order) and `data["rows"]`. -/
structure ResultData where
  columns : List String
  rows : List (List (String × Val))

/-- Modelled from the spec: the external Query/QueryResult lookup used by
`_load_result` — the stored query either has no data source (the detached
signal) or carries its most recent result set. -/
structure QueryRec where
  hasDataSource : Bool
  data : ResultData

/-- The external collaborators as an explicit environment: the org-scoped
query store behind `models.Query.get_by_id_and_org`, the `dateutil.parser.parse`
acceptance oracle on strings, and the `float()` string parser. -/
structure Env where
  queries : Nat → Nat → QueryRec
  dateParses : String → Bool
  parseNumber : String → Option Int

/-- The errors the validators can raise.  The first five are the
`ValueError`/`TypeError` validation failures `apply` catches and
aggregates; `detached` is `QueryDetachedFromDataSourceError`, `keyError` a
row/column lookup failure, and `attributeError` the `AttributeError` of
dereferencing `data_source.query_runner` with no data source bound — none
of those three is caught. -/
inductive HandleErr where
  | schemaMismatch (name : String)
  | typeCoercion
  | enumMembership (bad : List String)
  | multiValueNotAllowed
  | unknownParameterType (t : String)
  | detached (queryId : Nat)
  | keyError
  | attributeError
deriving Repr, DecidableEq

/-- Whether `apply`'s `except (ValueError, TypeError)` clause catches the
error (everything but the detached, key-lookup and attribute failures). -/
def HandleErr.caught : HandleErr → Bool
  | .detached _ => false
  | .keyError => false
  | .attributeError => false
  | _ => true

/-- Python dict assignment `d[k] = v`: overwrite in place or append. -/
def insertOrUpdate : List (String × Val) → String → Val → List (String × Val)
  | [], k, v => [(k, v)]
  | (k0, v0) :: rest, k, v =>
      if k0 = k then (k0, v) :: rest else (k0, v0) :: insertOrUpdate rest k v

/-- Lowercase every key of a row, later duplicates overwriting earlier ones
in place, as the dict comprehension `{k.lower(): v for k, v in row.items()}`
does. -/
def lowerRow (row : List (String × Val)) : List (String × Val) :=
  row.foldl (fun acc kv => insertOrUpdate acc (lowerStr kv.1) kv.2) []

/-- One resolved dropdown option `{"name": ..., "value": ...}`. -/
structure DropdownOption where
  name : Val
  value : String
deriving Repr

/-- `_pluck_name_and_value(default_column, row)`: lowercase the row keys,
pick the `name`/`value` columns (falling back to the lowercased default
column), keep `name`'s native value and stringify `value`.  A missing
column is a `KeyError` (uncaught). -/
def pluck_name_and_value (default_column : String) (row : List (String × Val)) :
    Except HandleErr DropdownOption :=
  let r := lowerRow row
  let name_column := if hasKey r "name" then "name" else lowerStr default_column
  let value_column := if hasKey r "value" then "value" else lowerStr default_column
  match getKey r name_column, getKey r value_column with
  | some nv, some vv => .ok ⟨nv, pyStr vv⟩
  | _, _ => .error .keyError

/-- `_load_result(query_id, org)`: fetch the stored query; if it has a data
source return its latest result data, else raise
`QueryDetachedFromDataSourceError(query_id)`. -/
def load_result (env : Env) (query_id org : Nat) : Except HandleErr ResultData :=
  let q := env.queries org query_id
  if q.hasDataSource then .ok q.data else .error (.detached query_id)

/-- Pluck every row in order; the first failing row's error propagates, as
in the strict `list(map(pluck, rows))`. -/
def pluckRows (first_column : String) :
    List (List (String × Val)) → Except HandleErr (List DropdownOption)
  | [] => .ok []
  | row :: rest => do
      let o ← pluck_name_and_value first_column row
      let os ← pluckRows first_column rest
      .ok (o :: os)

/-- `dropdown_values(query_id, org)`: load the result, take the first
declared column as default, and pluck one option per row in row order.
An empty column list is an uncaught `IndexError`, folded into `keyError`. -/
def dropdown_values (env : Env) (query_id org : Nat) :
    Except HandleErr (List DropdownOption) := do
  let data ← load_result env query_id org
  match data.columns with
  | [] => .error .keyError
  | first_column :: _ => pluckRows first_column data.rows

/-- `_maybe_escape(definition, value, data_source)`: escape only when the
definition requests it and the bound query runner supports it.  Python's
`and` short-circuits, so with `escape` falsy nothing is dereferenced; with
`escape` requested and no data source bound, `data_source.query_runner`
raises an uncaught `AttributeError`, modelled as the uncaught
`attributeError`. -/
def maybe_escape (definition : ParamDef) (value : String) (data_source : Option DataSource) :
    Except HandleErr String :=
  if definition.escape then
    match data_source with
    | some ds => if ds.supports_escape then .ok (ds.escape_parameter value) else .ok value
    | none => .error .attributeError
  else .ok value

/-- Escape every entry in order; the first failing escape's error
propagates, as in the generator consumed by `separator.join`. -/
def escapeAll (definition : ParamDef) (data_source : Option DataSource) :
    List String → Except HandleErr (List String)
  | [] => .ok []
  | v :: vs => do
      let e ← maybe_escape definition v data_source
      let es ← escapeAll definition data_source vs
      .ok (e :: es)

/-- `_join_list_values(definition, values, data_source)`: wrap each
individually escaped entry with the configured wrap strings and join on the
separator, in list order; an escape failure propagates. -/
def join_list_values (definition : ParamDef) (values : List String)
    (data_source : Option DataSource) : Except HandleErr String := do
  let mvo := definition.multiValuesOptions.getD {}
  let escaped ← escapeAll definition data_source values
  .ok (String.intercalate mvo.separator
    (escaped.map (fun e => mvo.pre ++ e ++ mvo.suf)))

/-- `_handle_text`: optional-null passes through as null; otherwise the
value must be a string, which is maybe-escaped. -/
def handle_text (definition : ParamDef) (value : Val) (data_source : Option DataSource) :
    Except HandleErr Val :=
  match value with
  | .null =>
      if definition.optional then .ok .null else .error .typeCoercion
  | .str s => do
      let e ← maybe_escape definition s data_source
      .ok (.str e)
  | _ => .error .typeCoercion

/-- `_handle_number`: optional-null passes through; a number passes through
unchanged; a string is parsed as a float; anything else fails. -/
def handle_number (env : Env) (definition : ParamDef) (value : Val) :
    Except HandleErr Val :=
  match value with
  | .null => if definition.optional then .ok .null else .error .typeCoercion
  | .num n => .ok (.num n)
  | .str s =>
      match env.parseNumber s with
      | some n => .ok (.num n)
      | none => .error .typeCoercion
  | _ => .error .typeCoercion

/-- `_handle_date`: optional-null passes through; otherwise run the date
parser on the value and, on acceptance, return the original literal
unchanged (non-strings make `parse` raise and fail coercion). -/
def handle_date (env : Env) (definition : ParamDef) (value : Val) :
    Except HandleErr Val :=
  match value with
  | .null => if definition.optional then .ok .null else .error .typeCoercion
  | .str s => if env.dateParses s then .ok (.str s) else .error .typeCoercion
  | _ => .error .typeCoercion

/-- `_handle_date_range`: optional-null yields `{"start": None, "end": None}`;
otherwise the value must be a dict with `start` and `end` keys, each run
independently through the date handler. -/
def handle_date_range (env : Env) (definition : ParamDef) (value : Val) :
    Except HandleErr Val :=
  match value with
  | .null =>
      if definition.optional then .ok (.obj [("start", .null), ("end", .null)])
      else .error .typeCoercion
  | .obj kvs =>
      match getKey kvs "start", getKey kvs "end" with
      | some s, some e => do
          let vs ← handle_date env definition s
          let ve ← handle_date env definition e
          .ok (.obj [("start", vs), ("end", ve)])
      | _, _ => .error .typeCoercion
  | _ => .error .typeCoercion

/-- `_handle_options(options_getter)` applied to a definition, value and
data source: the shared enum/dynamic-enum logic, parameterized by where the
allowed-value set comes from.  List input requires `multiValuesOptions`;
an optional empty list (or optional scalar null) short-circuits to null;
otherwise entries are stringified, checked for membership in the allowed
set, and escaped/joined. -/
def handle_options (options_getter : ParamDef → Val → Except HandleErr (List String))
    (definition : ParamDef) (value : Val) (data_source : Option DataSource) :
    Except HandleErr Val :=
  let allow_multiple_values := definition.multiValuesOptions.isSome
  match value with
  | .list items =>
      if !allow_multiple_values then .error .multiValueNotAllowed
      else if definition.optional && items.isEmpty then .ok .null
      else do
        let values := items.map pyStr
        let options ← options_getter definition value
        let bad := distinct (values.filter (fun v => !options.contains v))
        if !bad.isEmpty then .error (.enumMembership bad)
        else do
          let joined ← join_list_values definition values data_source
          .ok (.str joined)
  | v =>
      if definition.optional && v.isNull then .ok .null
      else do
        let s := pyStr v
        let options ← options_getter definition (.str s)
        if options.contains s then do
          let e ← maybe_escape definition s data_source
          .ok (.str e)
        else .error (.enumMembership [s])

/-- `get_enum_options(definition, value)`: the definition's own options,
split on newlines when given as a single string.  An absent `enumOptions`
makes the Python `set(None)` raise `TypeError`, a caught failure. -/
def get_enum_options (definition : ParamDef) (_value : Val) :
    Except HandleErr (List String) :=
  match definition.enumOptions with
  | .asString s => .ok (s.splitOn "\n")
  | .asList xs => .ok xs
  | .absent => .error .typeCoercion

/-- `get_query_options(definition, value)`: resolve the dropdown for the
definition's `queryId` and extract each option's `value`. -/
def get_query_options (env : Env) (org : Nat) (definition : ParamDef) (_value : Val) :
    Except HandleErr (List String) := do
  let opts ← dropdown_values env definition.queryId org
  .ok (opts.map (·.value))

/-- `_parameter_names(parameter_values)`: the covered names of a parameter
map — an entry bound to a dict contributes `"<name>.<subkey>"` for each of
its subkeys instead of the bare name. -/
def parameter_names (parameter_values : List (String × Val)) : List String :=
  (parameter_values.map (fun kv =>
    match kv.2 with
    | .obj inner => inner.map (fun ik => kv.1 ++ "." ++ ik.1)
    | _ => [kv.1])).flatten

/-- The `ParameterizedQuery` instance state: immutable template (as its
parse tree), schema and org/data-source context, plus the mutable
accumulated parameter map (`parameters`) and current text (`query`). -/
structure ParameterizedQuery where
  template : List Node
  schema : List ParamDef
  org : Nat
  data_source : Option DataSource
  query : String
  parameters : List (String × Val)

/-- `ParameterizedQuery.__init__`: empty schema when none given, `query`
starts as the unrendered template text, no parameters accumulated. -/
def ParameterizedQuery.init (template : List Node) (schema : Option (List ParamDef))
    (org : Nat) (data_source : Option DataSource) : ParameterizedQuery :=
  { template := template
    schema := schema.getD []
    org := org
    data_source := data_source
    query := nodesSource template
    parameters := [] }

/-- `ParameterizedQuery._handle(name, value)`: pass-through when the schema
is empty; otherwise look up the definition by name (`ValueError` when
absent), dispatch on its declared type string (`TypeError` when
unrecognized), and run the matching validator. -/
def ParameterizedQuery.handle (pq : ParameterizedQuery) (env : Env)
    (name : String) (value : Val) : Except HandleErr Val :=
  if pq.schema.isEmpty then .ok value
  else
    match pq.schema.find? (fun d => d.name = name) with
    | none => .error (.schemaMismatch name)
    | some definition =>
        match definition.type with
        | "text" => handle_text definition value pq.data_source
        | "number" => handle_number env definition value
        | "enum" => handle_options get_enum_options definition value pq.data_source
        | "query" => handle_options (get_query_options env pq.org) definition value pq.data_source
        | "date" => handle_date env definition value
        | "datetime-local" => handle_date env definition value
        | "datetime-with-seconds" => handle_date env definition value
        | "date-range" => handle_date_range env definition value
        | "datetime-range" => handle_date_range env definition value
        | "datetime-range-with-seconds" => handle_date_range env definition value
        | t => .error (.unknownParameterType t)

/-- The loop body of `apply`: process the supplied entries in order,
collecting validated values and the names whose validation raised a caught
error; an uncaught error (detached / key lookup) aborts the traversal. -/
def applyLoop (pq : ParameterizedQuery) (env : Env) :
    List (String × Val) → Except HandleErr (List (String × Val) × List String)
  | [] => .ok ([], [])
  | (name, value) :: rest =>
      match pq.handle env name value with
      | .ok v =>
          match applyLoop pq env rest with
          | .ok (vs, bad) => .ok ((name, v) :: vs, bad)
          | .error e => .error e
      | .error e =>
          if e.caught then
            match applyLoop pq env rest with
            | .ok (vs, bad) => .ok (vs, name :: bad)
            | .error e2 => .error e2
          else .error e

/-- Python `dict.update`: same-named entries are overwritten in place,
new entries appended in the update's order. -/
def dictUpdate (base upd : List (String × Val)) : List (String × Val) :=
  base.map (fun kv =>
      match getKey upd kv.1 with
      | some v => (kv.1, v)
      | none => kv)
    ++ upd.filter (fun kv => !hasKey base kv.1)

/-- What an `apply` call raises: the single aggregated
`InvalidParameterError` naming the failing parameters, or an uncaught
exception (detached / key lookup) propagating as-is. -/
inductive ApplyErr where
  | invalid (names : List String)
  | uncaught (e : HandleErr)
deriving Repr, DecidableEq

/-- `ParameterizedQuery.apply(parameters)`: validate every supplied entry,
collecting failures; raise the aggregated error when any name failed, or
an uncaught error immediately; otherwise merge this call's validated values
into the accumulated map and re-render the original template with only this
call's values.  The returned state is the (unchanged, on failure) instance. -/
def ParameterizedQuery.apply (pq : ParameterizedQuery) (env : Env)
    (values : List (String × Val)) : Except ApplyErr Unit × ParameterizedQuery :=
  match applyLoop pq env values with
  | .error e => (.error (.uncaught e), pq)
  | .ok (validated, invalid_parameter_names) =>
      if !invalid_parameter_names.isEmpty then
        (.error (.invalid invalid_parameter_names), pq)
      else
        (.ok (), { pq with
            parameters := dictUpdate pq.parameters validated
            query := mustache_render pq.template validated })

/-- Escape support of the optionally bound data source's query runner. -/
def dsSupports : Option DataSource → Bool
  | some ds => ds.supports_escape
  | none => false

/-- `ParameterizedQuery.is_safe`: no text-kind schema entry exists for
which escaping would not actually occur. -/
def ParameterizedQuery.is_safe (pq : ParameterizedQuery) : Bool :=
  !(pq.schema.any (fun param =>
      param.type = "text" &&
        (pq.data_source.isNone || !dsSupports pq.data_source || !param.escape)))

/-- `ParameterizedQuery.missing_params`: the placeholder names of the
template minus the names covered by the accumulated parameter map (a set
difference; membership is what matters). -/
def ParameterizedQuery.missing_params (pq : ParameterizedQuery) : List String :=
  (collect_query_parameters pq.template).filter
    (fun k => !(parameter_names pq.parameters).contains k)

/-- `ParameterizedQuery.text`: the current text. -/
def ParameterizedQuery.text (pq : ParameterizedQuery) : String :=
  pq.query

/-! Spec-side descriptions, transcribed from the specification's words, to be
compared against the source-derived definitions above. -/

mutual

/-- The spec's description of one node's contribution to the placeholder
walk: an interpolation node contributes its literal identifier; a
block/section node contributes its own identifier and, recursively, the
names of its body. -/
def specNodeNames : Node → List String
  | .text _ => []
  | .interp k => [k]
  | .sect k body => k :: specWalk body

/-- The spec's placeholder walk over a whole template, without
deduplication: the concatenated contributions of its nodes. -/
def specWalk : List Node → List String
  | [] => []
  | n :: ns => specNodeNames n ++ specWalk ns

end

/-! Helper lemmas about deduplication and the key walk. -/

theorem mem_distinctAux (x : String) :
    ∀ (l seen : List String), x ∈ distinctAux seen l ↔ x ∈ l ∧ x ∉ seen
  | [], seen => by simp [distinctAux]
  | y :: ys, seen => by
      by_cases hy : y ∈ seen
      · simp only [distinctAux, if_pos hy, mem_distinctAux x ys seen, List.mem_cons]
        constructor
        · rintro ⟨h1, h2⟩; exact ⟨Or.inr h1, h2⟩
        · rintro ⟨h1 | h1, h2⟩
          · exact absurd hy (h1 ▸ h2)
          · exact ⟨h1, h2⟩
      · simp only [distinctAux, if_neg hy, List.mem_cons, mem_distinctAux x ys (y :: seen)]
        by_cases hxy : x = y
        · subst hxy; simp [hy]
        · simp [hxy]

theorem mem_distinct (x : String) (l : List String) : x ∈ distinct l ↔ x ∈ l := by
  simp [distinct, mem_distinctAux]

theorem nodup_distinctAux : ∀ (l seen : List String), (distinctAux seen l).Nodup
  | [], _ => by simp [distinctAux]
  | y :: ys, seen => by
      by_cases hy : y ∈ seen
      · simpa [distinctAux, if_pos hy] using nodup_distinctAux ys seen
      · simp only [distinctAux, if_neg hy, List.nodup_cons]
        refine ⟨fun hmem => ?_, nodup_distinctAux ys (y :: seen)⟩
        exact ((mem_distinctAux y ys (y :: seen)).mp hmem).2 (List.mem_cons_self y seen)

theorem nodup_distinct (l : List String) : (distinct l).Nodup :=
  nodup_distinctAux l []

mutual

theorem mem_nodeKeys (x : String) : ∀ (n : Node), x ∈ nodeKeys n ↔ x ∈ specNodeNames n
  | .text s => by simp [nodeKeys, specNodeNames]
  | .interp k => by simp [nodeKeys, specNodeNames]
  | .sect k body => by
      simp [nodeKeys, specNodeNames, mem_distinct, mem_rawKeys x body]

theorem mem_rawKeys (x : String) : ∀ (ns : List Node), x ∈ rawKeys ns ↔ x ∈ specWalk ns
  | [] => by simp [rawKeys, specWalk]
  | n :: ns => by simp [rawKeys, specWalk, mem_nodeKeys x n, mem_rawKeys x ns]

end

theorem mem_collect_key_names (x : String) (nodes : List Node) :
    x ∈ collect_key_names nodes ↔ x ∈ specWalk nodes := by
  simp [collect_key_names, mem_distinct, mem_rawKeys]

/-- Claim C3: for every template and instance state, `missing_params` is the
deduplicated set of placeholder names of the recursive template walk — each
interpolation node contributing its literal identifier and each
block/section node its own identifier plus, recursively, its body's names —
minus the covered names of the accumulated parameter map, where an entry
bound to an object value contributes `"<name>.<subkey>"` for each subkey
instead of the bare name. -/
theorem claim_C3 (pq : ParameterizedQuery) :
    pq.missing_params.Nodup ∧
      ∀ x, x ∈ pq.missing_params ↔
        x ∈ specWalk pq.template ∧ x ∉ parameter_names pq.parameters := by
  constructor
  · exact (nodup_distinct _).filter _
  · intro x
    simp [ParameterizedQuery.missing_params, collect_query_parameters,
      List.mem_filter, mem_collect_key_names]

/-- Claim C8: `is_safe` is false if and only if the schema contains at
least one entry of kind text for which escaping would not actually occur —
no data source bound, or the bound data source's query runner does not
support escaping, or the entry does not request escaping — and is true
otherwise (in particular when the schema is empty, the existential is
vacuous and `is_safe` is true). -/
theorem claim_C8 (pq : ParameterizedQuery) :
    pq.is_safe = false ↔
      ∃ p ∈ pq.schema, p.type = "text" ∧
        (pq.data_source = none ∨ dsSupports pq.data_source = false ∨ p.escape = false) := by
  simp [ParameterizedQuery.is_safe, List.any_eq_true, Option.isNone_iff_eq_none,
    Bool.not_eq_true', and_assoc, or_assoc]

/-- Claim C9: every `apply` call, successful or failing, leaves the
instance's `template`, `schema`, `org` and `data_source` fields unchanged;
the accumulated parameter map and current text are the only fields an
`apply` call may change (they are the only other fields of the state). -/
theorem claim_C9 (pq : ParameterizedQuery) (env : Env) (values : List (String × Val)) :
    (pq.apply env values).2.template = pq.template ∧
      (pq.apply env values).2.schema = pq.schema ∧
      (pq.apply env values).2.org = pq.org ∧
      (pq.apply env values).2.data_source = pq.data_source := by
  unfold ParameterizedQuery.apply
  rcases applyLoop pq env values with e | ⟨validated, bad⟩
  · exact ⟨rfl, rfl, rfl, rfl⟩
  · dsimp only
    split
    · exact ⟨rfl, rfl, rfl, rfl⟩
    · exact ⟨rfl, rfl, rfl, rfl⟩

/-- Reduction of the `Except` monad's bind on a success value. -/
theorem bind_ok {ε α β : Type} (a : α) (f : α → Except ε β) :
    (do let x ← (Except.ok a : Except ε α); f x) = f a := rfl

/-- Reduction of the `Except` monad's bind on an error value. -/
theorem bind_error {ε α β : Type} (e : ε) (f : α → Except ε β) :
    (do let x ← (Except.error e : Except ε α); f x) = Except.error e := rfl

/-- Whether a validator result is a failure `apply` catches and
aggregates. -/
def isCaughtFailure : Except HandleErr Val → Bool
  | .error e => e.caught
  | .ok _ => false

/-- Spec-side description: the names, in supply order, of every supplied
entry whose validation fails with a caught (aggregated) error — a filter
over the whole batch, so no failure hides a later one. -/
def failedNames (pq : ParameterizedQuery) (env : Env)
    (values : List (String × Val)) : List String :=
  (values.filter (fun kv => isCaughtFailure (pq.handle env kv.1 kv.2))).map (·.1)

/-- Spec-side description: the first uncaught (fatal) error hit while
validating the supplied entries in order, if any. -/
def firstUncaught (pq : ParameterizedQuery) (env : Env) :
    List (String × Val) → Option HandleErr
  | [] => none
  | (n, v) :: rest =>
      match pq.handle env n v with
      | .ok _ => firstUncaught pq env rest
      | .error e => if e.caught then firstUncaught pq env rest else some e

/-- Spec-side description: the validated value of every successfully
validated entry, in supply order. -/
def validatedEntries (pq : ParameterizedQuery) (env : Env)
    (values : List (String × Val)) : List (String × Val) :=
  values.filterMap (fun kv =>
    match pq.handle env kv.1 kv.2 with
    | .ok v => some (kv.1, v)
    | .error _ => none)

/-- The validation loop of `apply`, characterized: it aborts with the first
fatal error, and otherwise returns every validated entry together with the
names of every entry that failed with a caught error. -/
theorem applyLoop_eq (pq : ParameterizedQuery) (env : Env) :
    ∀ (values : List (String × Val)),
      applyLoop pq env values =
        match firstUncaught pq env values with
        | some e => .error e
        | none => .ok (validatedEntries pq env values, failedNames pq env values)
  | [] => by simp [applyLoop, firstUncaught, validatedEntries, failedNames]
  | (n, v) :: rest => by
      have ih := applyLoop_eq pq env rest
      cases h : pq.handle env n v with
      | ok w =>
          simp only [applyLoop, firstUncaught, validatedEntries, failedNames,
            List.filterMap_cons, List.filter_cons, isCaughtFailure, h, ih]
          cases hf : firstUncaught pq env rest <;>
            simp [validatedEntries, failedNames, isCaughtFailure, h]
      | error e =>
          cases hc : e.caught with
          | true =>
              simp only [applyLoop, firstUncaught, validatedEntries, failedNames,
                List.filterMap_cons, List.filter_cons, isCaughtFailure, h, hc, ih,
                if_true]
              cases hf : firstUncaught pq env rest <;>
                simp [validatedEntries, failedNames, isCaughtFailure, h, hc]
          | false =>
              simp [applyLoop, firstUncaught, h, hc]

/-- Claim C1: `apply` collects per-name caught validation failures
(schema mismatch, type coercion, enum membership, multi-value not allowed,
unknown parameter type) across every supplied entry — `failedNames` is a
filter over the whole batch — and, if any occurred, raises one aggregated
`InvalidParameterError` naming exactly the failing names, leaving the state
unchanged; an uncaught error (the detached-query case) aborts the call
immediately with the first such error, propagates on its own (never folded
into the aggregate), and also leaves the state unchanged. -/
theorem claim_C1 (pq : ParameterizedQuery) (env : Env) (values : List (String × Val)) :
    (∀ e, firstUncaught pq env values = some e →
        pq.apply env values = (.error (.uncaught e), pq)) ∧
    (firstUncaught pq env values = none → failedNames pq env values ≠ [] →
        pq.apply env values = (.error (.invalid (failedNames pq env values)), pq)) := by
  constructor
  · intro e he
    simp [ParameterizedQuery.apply, applyLoop_eq, he]
  · intro hnone hbad
    simp [ParameterizedQuery.apply, applyLoop_eq, hnone, hbad]

/-- Environment for the concrete apply scenarios: every stored query is
detached, no string parses as a number, every string parses as a date. -/
def w_env : Env :=
  { queries := fun _ _ => ⟨false, ⟨[], []⟩⟩
    dateParses := fun _ => true
    parseNumber := fun _ => none }

/-- Instance whose schema declares a number and a text parameter. -/
def w_pqAgg : ParameterizedQuery :=
  .init [.text "foo ", .interp "a"]
    (some [{ name := "a", type := "number" }, { name := "b", type := "text" }]) 0 none

/-- Batch in which every entry fails a caught validation: `a` fails number
coercion, `c` has no definition, `b` fails the string check. -/
def w_vals1 : List (String × Val) :=
  [("a", .str "x"), ("c", .str "y"), ("b", .num 1)]

/-- Instance whose schema declares a dynamic-enum (dropdown) parameter
backed by query 7 and a text parameter. -/
def w_pqQ : ParameterizedQuery :=
  .init [.text "foo ", .interp "bar"]
    (some [{ name := "bar", type := "query", queryId := 7 },
           { name := "baz", type := "text" }]) 0 none

/-- Batch whose first entry fails a caught validation and whose second hits
the detached dropdown query. -/
def w_vals2 : List (String × Val) :=
  [("baz", .num 3), ("bar", .str "x")]

theorem claim_C1_witness :
    w_pqAgg.apply w_env w_vals1 = (.error (.invalid ["a", "c", "b"]), w_pqAgg) ∧
      w_pqQ.apply w_env w_vals2 = (.error (.uncaught (.detached 7)), w_pqQ) := by
  constructor
  · exact (claim_C1 w_pqAgg w_env w_vals1).2 (by decide) (by decide)
  · exact (claim_C1 w_pqQ w_env w_vals2).1 (.detached 7) (by decide)

/-- Template `"{{a}} and {{b}}"` for the disjoint-apply scenario. -/
def c2_template : List Node := [.interp "a", .text " and ", .interp "b"]

/-- Schema-less instance after a first `apply` supplying only `a`. -/
def c2_first : ParameterizedQuery :=
  ((ParameterizedQuery.init c2_template none 0 none).apply w_env [("a", .str "1")]).2

/-- The same instance after a second `apply` supplying only `b`. -/
def c2_second : ParameterizedQuery :=
  (c2_first.apply w_env [("b", .str "2")]).2

/-- Claim C2: a successful `apply` renders the full original template with
only this call's validated values (not the accumulated parameter map);
consequently, after a second `apply` with a disjoint parameter set the text
lacks the first call's substitution (it differs from a render of the
accumulated map) even though `missing_params` no longer reports the first
call's name. -/
theorem claim_C2 :
    (∀ (pq : ParameterizedQuery) (env : Env) (values : List (String × Val))
        (pq' : ParameterizedQuery),
        pq.apply env values = (.ok (), pq') →
        ∃ validated, applyLoop pq env values = .ok (validated, []) ∧
          pq'.query = mustache_render pq.template validated) ∧
    c2_second.text = " and 2" ∧
      c2_second.text ≠ mustache_render c2_template c2_second.parameters ∧
      "a" ∉ c2_second.missing_params := by
  refine ⟨?_, by decide, by decide, by decide⟩
  intro pq env values pq' h
  unfold ParameterizedQuery.apply at h
  split at h
  next e heq => exact absurd h (by simp)
  next validated bad heq =>
    by_cases hb : bad.isEmpty = true
    · have hnil : bad = [] := List.isEmpty_iff.mp hb
      subst hnil
      rw [if_neg (by simp)] at h
      injection h with h1 h2
      exact ⟨validated, heq, by rw [← h2]⟩
    · rw [if_pos (by simp only [Bool.not_eq_true] at hb; simp [hb])] at h
      exact absurd h (by simp)

theorem claim_C2_witness :
    ∃ validated,
      applyLoop (ParameterizedQuery.init c2_template none 0 none) w_env
          [("a", .str "1")] = .ok (validated, []) ∧
        c2_first.query = mustache_render c2_template validated :=
  claim_C2.1 (ParameterizedQuery.init c2_template none 0 none) w_env
    [("a", .str "1")] c2_first rfl

/-- Claim C6: a date-kind value accepted by the date parser validates to
the original literal unchanged, and likewise for both components of a
date-range object; a rejected value raises the caught (aggregated)
coercion error. -/
theorem claim_C6 (env : Env) (definition : ParamDef) :
    (∀ s, env.dateParses s = true →
        handle_date env definition (.str s) = .ok (.str s)) ∧
    (∀ s, env.dateParses s = false →
        handle_date env definition (.str s) = .error .typeCoercion ∧
          HandleErr.typeCoercion.caught = true) ∧
    (∀ kvs s e, getKey kvs "start" = some (.str s) → getKey kvs "end" = some (.str e) →
        env.dateParses s = true → env.dateParses e = true →
        handle_date_range env definition (.obj kvs) =
          .ok (.obj [("start", .str s), ("end", .str e)])) := by
  refine ⟨fun s hs => by simp [handle_date, hs], fun s hs => ⟨by simp [handle_date, hs], rfl⟩,
    fun kvs s e hks hke hs he => ?_⟩
  simp only [handle_date_range, hks, hke, handle_date, hs, he, if_true]
  rfl

/-- A date-parser oracle accepting exactly the two literals of the
date-range regression test. -/
def c6_env : Env :=
  { w_env with
    dateParses := fun s => s = "2000-01-01 12:00:00" || s = "2000-12-31 12:00:00" }

theorem claim_C6_witness :
    handle_date c6_env { name := "bar", type := "date" } (.str "2000-01-01 12:00:00") =
        .ok (.str "2000-01-01 12:00:00") ∧
      handle_date c6_env { name := "bar", type := "date" } (.str "baz") =
        .error .typeCoercion ∧
      handle_date_range c6_env { name := "bar", type := "date-range" }
          (.obj [("start", .str "2000-01-01 12:00:00"), ("end", .str "2000-12-31 12:00:00")]) =
        .ok (.obj [("start", .str "2000-01-01 12:00:00"), ("end", .str "2000-12-31 12:00:00")]) :=
  ⟨(claim_C6 c6_env { name := "bar", type := "date" }).1 _ (by decide),
    ((claim_C6 c6_env { name := "bar", type := "date" }).2.1 _ (by decide)).1,
    (claim_C6 c6_env { name := "bar", type := "date-range" }).2.2 _ _ _ rfl rfl
      (by decide) (by decide)⟩

/-- A single-entry batch whose validation succeeds makes `apply` succeed. -/
theorem apply_single_ok (pq : ParameterizedQuery) (env : Env) (n : String) (v w : Val)
    (h : pq.handle env n v = .ok w) : (pq.apply env [(n, v)]).1 = .ok () := by
  simp [ParameterizedQuery.apply, applyLoop, h]

/-- Claim C7: for a definition marked optional (of any recognized kind), a
null raw value validates to null — to `{start: null, end: null}` for range
kinds — and for enum/dynamic-enum kinds with `multiValuesOptions` present
an empty list validates to null, in every case independent of the
environment (no type, parse, membership or dropdown check runs), so the
`apply` call succeeds for that name. -/
theorem claim_C7 (pq : ParameterizedQuery) (env : Env) (d : ParamDef)
    (hfind : pq.schema.find? (fun x => x.name = d.name) = some d)
    (hopt : d.optional = true) :
    (d.type ∈ ["text", "number", "date", "datetime-local", "datetime-with-seconds",
        "enum", "query"] →
      pq.handle env d.name .null = .ok .null) ∧
    (d.type ∈ ["date-range", "datetime-range", "datetime-range-with-seconds"] →
      pq.handle env d.name .null = .ok (.obj [("start", .null), ("end", .null)])) ∧
    (d.type ∈ ["enum", "query"] → d.multiValuesOptions.isSome = true →
      pq.handle env d.name (.list []) = .ok .null) ∧
    (d.type ∈ ["text", "number", "date", "datetime-local", "datetime-with-seconds",
        "enum", "query", "date-range", "datetime-range", "datetime-range-with-seconds"] →
      (pq.apply env [(d.name, .null)]).1 = .ok ()) ∧
    (d.type ∈ ["enum", "query"] → d.multiValuesOptions.isSome = true →
      (pq.apply env [(d.name, .list [])]).1 = .ok ()) := by
  have hne : pq.schema.isEmpty = false := by
    cases hsc : pq.schema
    · rw [hsc] at hfind; simp at hfind
    · simp
  have h1 : d.type ∈ ["text", "number", "date", "datetime-local", "datetime-with-seconds",
      "enum", "query"] → pq.handle env d.name .null = .ok .null := by
    intro ht
    simp only [List.mem_cons, List.not_mem_nil, or_false] at ht
    rcases ht with ht | ht | ht | ht | ht | ht | ht <;>
      simp [ParameterizedQuery.handle, hne, hfind, ht, handle_text, handle_number,
        handle_date, handle_options, hopt, Val.isNull]
  have h2 : d.type ∈ ["date-range", "datetime-range", "datetime-range-with-seconds"] →
      pq.handle env d.name .null = .ok (.obj [("start", .null), ("end", .null)]) := by
    intro ht
    simp only [List.mem_cons, List.not_mem_nil, or_false] at ht
    rcases ht with ht | ht | ht <;>
      simp [ParameterizedQuery.handle, hne, hfind, ht, handle_date_range, hopt]
  have h3 : d.type ∈ ["enum", "query"] → d.multiValuesOptions.isSome = true →
      pq.handle env d.name (.list []) = .ok .null := by
    intro ht hmv
    simp only [List.mem_cons, List.not_mem_nil, or_false] at ht
    rcases ht with ht | ht <;>
      simp [ParameterizedQuery.handle, hne, hfind, ht, handle_options, hmv, hopt]
  refine ⟨h1, h2, h3, ?_, ?_⟩
  · intro ht
    simp only [List.mem_cons, List.not_mem_nil, or_false] at ht
    rcases ht with ht | ht | ht | ht | ht | ht | ht | ht | ht | ht
    all_goals first
      | exact apply_single_ok pq env d.name .null .null (h1 (by rw [ht]; decide))
      | exact apply_single_ok pq env d.name .null (.obj [("start", .null), ("end", .null)])
          (h2 (by rw [ht]; decide))
  · intro ht hmv
    exact apply_single_ok pq env d.name (.list []) .null (h3 ht hmv)

/-- An optional multi-valued enum definition for the optional-handling
scenario. -/
def c7_def : ParamDef :=
  { name := "foo", type := "enum", optional := true,
    enumOptions := .asList ["baz"], multiValuesOptions := some {} }

/-- Instance declaring the optional enum parameter `foo`. -/
def c7_pq : ParameterizedQuery :=
  .init [.interp "foo"] (some [c7_def, { name := "t", type := "text" }]) 0 none

theorem claim_C7_witness :
    c7_pq.handle w_env "foo" .null = .ok .null ∧
      c7_pq.handle w_env "foo" (.list []) = .ok .null ∧
      (c7_pq.apply w_env [("foo", .null)]).1 = .ok () ∧
      (c7_pq.apply w_env [("foo", .list [])]).1 = .ok () := by
  obtain ⟨h1, h2, h3, h4, h5⟩ := claim_C7 c7_pq w_env c7_def rfl rfl
  exact ⟨h1 (by decide), h3 (by decide) rfl, h4 (by decide), h5 (by decide) rfl⟩

/-- A successful `escapeAll` escapes each entry individually, in order. -/
theorem escapeAll_ok (definition : ParamDef) (ds : Option DataSource) :
    ∀ (values escaped : List String), escapeAll definition ds values = .ok escaped →
      List.Forall₂ (fun v e => maybe_escape definition v ds = .ok e) values escaped
  | [], escaped => by
      intro h
      simp only [escapeAll] at h
      cases h
      exact List.Forall₂.nil
  | v :: vs, escaped => by
      intro h
      simp only [escapeAll] at h
      cases hp : maybe_escape definition v ds with
      | error e =>
          rw [hp, bind_error] at h
          exact absurd h (by simp)
      | ok e =>
          rw [hp, bind_ok] at h
          cases hr : escapeAll definition ds vs with
          | error e2 =>
              rw [hr, bind_error] at h
              exact absurd h (by simp)
          | ok es =>
              rw [hr, bind_ok] at h
              injection h with h
              subst h
              exact List.Forall₂.cons hp (escapeAll_ok definition ds vs es hr)

/-- When every entry escapes successfully, `join_list_values` wraps the
escaped entries and joins them on the separator. -/
theorem join_list_values_ok (definition : ParamDef) (ds : Option DataSource)
    (values escaped : List String) (mvo : MultiValuesOptions)
    (hmv : definition.multiValuesOptions = some mvo)
    (h : escapeAll definition ds values = .ok escaped) :
    join_list_values definition values ds =
      .ok (String.intercalate mvo.separator
        (escaped.map (fun e => mvo.pre ++ e ++ mvo.suf))) := by
  simp [join_list_values, hmv, h, bind_ok]

/-- Claim C4: for an enum/dynamic-enum definition with `multiValuesOptions`
present, a list input is stringified entry-wise; when the stringified
entries are all among the allowed options, the validated value joins them
in input-list order, each individually escaped (the hypothesis names each
entry's escape result; the escape step can only fail when escaping is
requested with no data source bound, an uncaught `AttributeError`) and
then wrapped with the configured wrap strings; otherwise the caught
(aggregated) `EnumMembershipError` names exactly the offending stringified
values.  A list input for a definition without `multiValuesOptions` raises
the caught (aggregated) `MultiValueNotAllowedError`. -/
theorem claim_C4 (getter : ParamDef → Val → Except HandleErr (List String))
    (definition : ParamDef) (ds : Option DataSource) :
    (∀ mvo items opts, definition.multiValuesOptions = some mvo →
        getter definition (.list items) = .ok opts →
        ¬(definition.optional = true ∧ items = []) →
        ((∀ s ∈ items.map pyStr, s ∈ opts) →
            ∀ escaped, escapeAll definition ds (items.map pyStr) = .ok escaped →
              List.Forall₂ (fun v e => maybe_escape definition v ds = .ok e)
                  (items.map pyStr) escaped ∧
                handle_options getter definition (.list items) ds =
                  .ok (.str (String.intercalate mvo.separator
                    (escaped.map (fun e => mvo.pre ++ e ++ mvo.suf))))) ∧
          ((∃ s ∈ items.map pyStr, s ∉ opts) →
            ∃ bad, handle_options getter definition (.list items) ds =
                .error (.enumMembership bad) ∧
              bad ≠ [] ∧ (∀ b, b ∈ bad ↔ b ∈ items.map pyStr ∧ b ∉ opts) ∧
              (HandleErr.enumMembership bad).caught = true)) ∧
    (∀ items, definition.multiValuesOptions = none →
        handle_options getter definition (.list items) ds = .error .multiValueNotAllowed ∧
          HandleErr.multiValueNotAllowed.caught = true) := by
  constructor
  · intro mvo items opts hmv hget hne
    have hoe : (definition.optional && items.isEmpty) = false := by
      cases ho : definition.optional
      · simp
      · simp only [Bool.true_and]
        cases hi : items.isEmpty
        · rfl
        · exact absurd ⟨rfl, List.isEmpty_iff.mp hi⟩ (ho ▸ hne)
    have hmem : ∀ b, b ∈ distinct ((items.map pyStr).filter (fun v => !opts.contains v)) ↔
        b ∈ items.map pyStr ∧ b ∉ opts := by
      intro b
      rw [mem_distinct, List.mem_filter]
      simp [List.contains, List.elem_eq_mem]
    constructor
    · intro hsub escaped hesc
      refine ⟨escapeAll_ok definition ds (items.map pyStr) escaped hesc, ?_⟩
      have hbadnil : distinct ((items.map pyStr).filter (fun v => !opts.contains v)) = [] := by
        rw [List.eq_nil_iff_forall_not_mem]
        intro b hb
        exact ((hmem b).mp hb).2 (hsub b ((hmem b).mp hb).1)
      simp only [handle_options, hmv, Option.isSome_some, Bool.not_true, Bool.false_eq_true,
        if_false, hoe, hget, bind_ok]
      rw [hbadnil]
      simp only [List.isEmpty_nil, Bool.not_true, Bool.false_eq_true, if_false]
      rw [join_list_values_ok definition ds (items.map pyStr) escaped mvo hmv hesc, bind_ok]
    · intro hbad
      refine ⟨distinct ((items.map pyStr).filter (fun v => !opts.contains v)), ?_, ?_, hmem, rfl⟩
      · have hbadne : ¬distinct ((items.map pyStr).filter (fun v => !opts.contains v)) = [] := by
          obtain ⟨s, hs1, hs2⟩ := hbad
          intro hnil
          exact (List.eq_nil_iff_forall_not_mem.mp hnil s) ((hmem s).mpr ⟨hs1, hs2⟩)
        have hbf : (distinct ((items.map pyStr).filter (fun v => !opts.contains v))).isEmpty
            = false := by
          rw [← Bool.not_eq_true, List.isEmpty_iff]
          exact hbadne
        simp only [handle_options, hmv, Option.isSome_some, Bool.not_true, Bool.false_eq_true,
          if_false, hoe, hget, bind_ok, hbf]
        simp
      · obtain ⟨s, hs1, hs2⟩ := hbad
        intro hnil
        exact (List.eq_nil_iff_forall_not_mem.mp hnil s) ((hmem s).mpr ⟨hs1, hs2⟩)
  · intro items hmv
    exact ⟨by simp [handle_options, hmv], rfl⟩

/-- Multi-valued enum definition with separator `","` and wrap strings
`"<"`, `">"`. -/
def c4_def : ParamDef :=
  { name := "bar", type := "enum", enumOptions := .asList ["baz", "qux"],
    multiValuesOptions := some { separator := ",", pre := "<", suf := ">" } }

/-- The same definition without `multiValuesOptions`. -/
def c4_noMulti : ParamDef :=
  { name := "bar", type := "enum", enumOptions := .asList ["baz", "qux"] }

theorem claim_C4_witness :
    handle_options get_enum_options c4_def (.list [.str "qux", .str "baz"]) none =
        .ok (.str "<qux>,<baz>") ∧
      handle_options get_enum_options c4_noMulti (.list [.str "baz"]) none =
        .error .multiValueNotAllowed := by
  constructor
  · exact (((claim_C4 get_enum_options c4_def none).1
      { separator := ",", pre := "<", suf := ">" } [.str "qux", .str "baz"]
      ["baz", "qux"] rfl rfl (by simp [c4_def])).1 (by decide) ["qux", "baz"] rfl).2
  · exact ((claim_C4 get_enum_options c4_noMulti none).2 [.str "baz"] rfl).1

/-- Claim C10: for an optional enum/dynamic-enum parameter, a scalar empty
string is not treated as absent — it is stringified and membership-checked
against the allowed options (so `apply` raises the aggregated error naming
the parameter unless the empty string is itself allowed; when it is allowed
the escape step runs, its result named by hypothesis); only a scalar null,
or an empty list when `multiValuesOptions` is present, bypasses the
membership check. -/
theorem claim_C10 (getter : ParamDef → Val → Except HandleErr (List String))
    (definition : ParamDef) (ds : Option DataSource)
    (hopt : definition.optional = true) :
    (∀ opts e, getter definition (.str "") = .ok opts →
        maybe_escape definition "" ds = .ok e →
        handle_options getter definition (.str "") ds =
          if "" ∈ opts then .ok (.str e)
          else .error (.enumMembership [""])) ∧
    handle_options getter definition .null ds = .ok .null ∧
    (definition.multiValuesOptions.isSome = true →
        handle_options getter definition (.list []) ds = .ok .null) ∧
    (∀ (pq : ParameterizedQuery) (env : Env) (opts : List String),
        pq.schema.find? (fun x => x.name = definition.name) = some definition →
        definition.type = "enum" → definition.enumOptions = .asList opts →
        "" ∉ opts →
        pq.apply env [(definition.name, .str "")] =
          (.error (.invalid [definition.name]), pq)) := by
  refine ⟨?_, by simp [handle_options, hopt, Val.isNull], ?_, ?_⟩
  · intro opts e hget hesc
    have hs : pyStr (.str "") = "" := rfl
    by_cases hm : "" ∈ opts <;>
      simp [handle_options, Val.isNull, hs, hget, hesc, bind_ok, hm,
        List.contains, List.elem_eq_mem, if_pos, if_neg]
  · intro hmv
    simp [handle_options, hmv, hopt]
  · intro pq env opts hfind htype henum hmem
    have hne : pq.schema.isEmpty = false := by
      cases hsc : pq.schema
      · rw [hsc] at hfind; simp at hfind
      · simp
    have hh : pq.handle env definition.name (.str "") = .error (.enumMembership [""]) := by
      simp [ParameterizedQuery.handle, hne, hfind, htype, handle_options, Val.isNull,
        get_enum_options, henum, bind_ok, pyStr, List.contains, List.elem_eq_mem, hmem]
    simp [ParameterizedQuery.apply, applyLoop, hh, HandleErr.caught]

/-- Optional enum definition allowing only `"baz"`. -/
def c10_def : ParamDef :=
  { name := "bar", type := "enum", optional := true, enumOptions := .asList ["baz"] }

/-- Instance declaring only the optional enum parameter `bar`. -/
def c10_pq : ParameterizedQuery :=
  .init [.interp "bar"] (some [c10_def]) 0 none

theorem claim_C10_witness :
    handle_options get_enum_options c10_def (.str "") none = .error (.enumMembership [""]) ∧
      handle_options get_enum_options c10_def .null none = .ok .null ∧
      c10_pq.apply w_env [("bar", .str "")] = (.error (.invalid ["bar"]), c10_pq) := by
  obtain ⟨h1, h2, h3, h4⟩ := claim_C10 get_enum_options c10_def none rfl
  refine ⟨?_, h2, h4 c10_pq w_env ["baz"] rfl rfl rfl (by decide)⟩
  have h := h1 ["baz"] "" rfl rfl
  simpa using h

/-- Dict assignment appends when the key is absent. -/
theorem insertOrUpdate_append (acc : List (String × Val)) (k : String) (v : Val)
    (h : k ∉ acc.map Prod.fst) :
    insertOrUpdate acc k v = acc ++ [(k, v)] := by
  induction acc with
  | nil => rfl
  | cons kv rest ih =>
      simp only [List.map_cons, List.mem_cons] at h
      push_neg at h
      simp only [insertOrUpdate, if_neg (Ne.symm h.1)]
      rw [ih h.2]
      rfl

/-- When the lowercased keys are pairwise distinct, lowering a row never
overwrites and just lowercases each key in place. -/
theorem lowerRow_eq_map (row : List (String × Val))
    (h : (row.map (fun kv => lowerStr kv.1)).Nodup) :
    lowerRow row = row.map (fun kv => (lowerStr kv.1, kv.2)) := by
  suffices haux : ∀ (acc : List (String × Val)),
      ((acc.map Prod.fst) ++ row.map (fun kv => lowerStr kv.1)).Nodup →
      row.foldl (fun acc kv => insertOrUpdate acc (lowerStr kv.1) kv.2) acc =
        acc ++ row.map (fun kv => (lowerStr kv.1, kv.2)) by
    simpa [lowerRow] using haux [] (by simpa using h)
  clear h
  induction row with
  | nil => intro acc _; simp
  | cons kv rest ih =>
      intro acc hacc
      have hk : lowerStr kv.1 ∉ acc.map Prod.fst := by
        intro hmem
        have := (List.nodup_append.mp hacc).2.2
        exact this hmem (by simp)
      simp only [List.foldl_cons, insertOrUpdate_append acc (lowerStr kv.1) kv.2 hk]
      rw [ih (acc ++ [(lowerStr kv.1, kv.2)]) ?_]
      · simp
      · have : (acc ++ [(lowerStr kv.1, kv.2)]).map Prod.fst ++
            rest.map (fun kv => lowerStr kv.1) =
            acc.map Prod.fst ++ (kv :: rest).map (fun kv => lowerStr kv.1) := by
          simp
        rw [this]
        exact hacc

/-- Key lookup in a key-mapped association list is a `find?` on the
original list through the key transform. -/
theorem getKey_map_lower (row : List (String × Val)) (k : String) :
    getKey (row.map (fun kv => (lowerStr kv.1, kv.2))) k =
      (row.find? (fun kv => lowerStr kv.1 = k)).map (fun kv => kv.2) := by
  induction row with
  | nil => rfl
  | cons kv rest ih =>
      simp only [List.map_cons, getKey, List.find?] at ih ⊢
      by_cases hk : lowerStr kv.1 = k
      · simp [hk]
      · rw [decide_eq_false hk]
        exact ih

/-- Key membership in a key-mapped association list is an `any` on the
original list through the key transform. -/
theorem hasKey_map_lower (row : List (String × Val)) (k : String) :
    hasKey (row.map (fun kv => (lowerStr kv.1, kv.2))) k =
      row.any (fun kv => lowerStr kv.1 = k) := by
  simp [hasKey, List.any_map, Function.comp_def]

/-- A successful `pluckRows` plucks each row to the option at the same
position. -/
theorem pluckRows_ok (first_column : String) :
    ∀ (rows : List (List (String × Val))) (opts : List DropdownOption),
      pluckRows first_column rows = .ok opts →
      List.Forall₂ (fun row opt => pluck_name_and_value first_column row = .ok opt) rows opts
  | [], opts => by
      intro h
      simp only [pluckRows] at h
      cases h
      exact List.Forall₂.nil
  | row :: rest, opts => by
      intro h
      simp only [pluckRows] at h
      cases hp : pluck_name_and_value first_column row with
      | error e =>
          rw [hp, bind_error] at h
          exact absurd h (by simp)
      | ok o =>
          rw [hp, bind_ok] at h
          cases hr : pluckRows first_column rest with
          | error e =>
              rw [hr, bind_error] at h
              exact absurd h (by simp)
          | ok os =>
              rw [hr, bind_ok] at h
              injection h with h
              subst h
              exact List.Forall₂.cons hp (pluckRows_ok first_column rest os hr)

/-- Claim C5: for a successfully loaded result set, dropdown resolution
returns one option per row in row order; per row (with case-insensitively
distinct keys), `name` is the value under a key matching `"name"`
case-insensitively, else the value under the first declared column, and —
independently — `value` is the value under a key matching `"value"`
case-insensitively, else the value under the first declared column;
`value` is always stringified while `name` keeps its native value. -/
theorem claim_C5 :
    (∀ (env : Env) (query_id org : Nat) (data : ResultData) (first_column : String)
        (rest : List String) (opts : List DropdownOption),
        load_result env query_id org = .ok data →
        data.columns = first_column :: rest →
        dropdown_values env query_id org = .ok opts →
        List.Forall₂ (fun row opt => pluck_name_and_value first_column row = .ok opt)
          data.rows opts) ∧
    (∀ (default_column : String) (row : List (String × Val)),
        (row.map (fun kv => lowerStr kv.1)).Nodup →
        pluck_name_and_value default_column row =
          match
            (if row.any (fun kv => lowerStr kv.1 = "name") then
              (row.find? (fun kv => lowerStr kv.1 = "name")).map (fun kv => kv.2)
            else (row.find? (fun kv => lowerStr kv.1 = lowerStr default_column)).map
              (fun kv => kv.2)),
            (if row.any (fun kv => lowerStr kv.1 = "value") then
              (row.find? (fun kv => lowerStr kv.1 = "value")).map (fun kv => kv.2)
            else (row.find? (fun kv => lowerStr kv.1 = lowerStr default_column)).map
              (fun kv => kv.2))
          with
          | some nv, some vv => .ok ⟨nv, pyStr vv⟩
          | _, _ => .error .keyError) := by
  constructor
  · intro env query_id org data first_column rest opts hload hcols hdrop
    unfold dropdown_values at hdrop
    rw [hload] at hdrop
    simp only [bind_ok] at hdrop
    rw [hcols] at hdrop
    exact pluckRows_ok first_column data.rows opts hdrop
  · intro default_column row hnodup
    simp only [pluck_name_and_value, lowerRow_eq_map row hnodup, hasKey_map_lower,
      getKey_map_lower]
    by_cases hn : row.any (fun kv => lowerStr kv.1 = "name") = true <;>
      by_cases hv : row.any (fun kv => lowerStr kv.1 = "value") = true <;>
        simp only [hn, hv, if_true, if_false, Bool.false_eq_true]

/-- Result set with columns `id`, `Name`, `Value` and one row. -/
def c5_data : ResultData :=
  ⟨["id", "Name", "Value"],
   [[("id", .num 5), ("Name", .str "John"), ("Value", .str "John Doe")]]⟩

/-- Environment whose stored queries all resolve to `c5_data`. -/
def c5_env : Env := { w_env with queries := fun _ _ => ⟨true, c5_data⟩ }

theorem claim_C5_witness :
    List.Forall₂ (fun row opt => pluck_name_and_value "id" row = .ok opt)
        c5_data.rows [⟨.str "John", "John Doe"⟩] ∧
      pluck_name_and_value "id"
          [("fish", .str "Clown"), ("ID", .num 5), ("poultry", .str "Hen")] =
        .ok ⟨.num 5, "5"⟩ := by
  constructor
  · exact claim_C5.1 c5_env 1 0 c5_data "id" ["Name", "Value"]
      [⟨.str "John", "John Doe"⟩] rfl rfl rfl
  · exact claim_C5.2 "id"
      [("fish", .str "Clown"), ("ID", .num 5), ("poultry", .str "Hen")] (by decide)

end PQuery
